import Mathlib

/-!
# Verification of the interactive railway-diagram editor (`main.go`)

Shallow embedding of the core of `main.go` (the v8.4 variant, which carries
both camera offsets; the v7.3 variant in the same file differs only in lacking
the Y offset).  Conventions of the embedding:

* Go `float64`/`float32`/`int` numerics are modelled as exact rationals `ℚ`
  (the `float32` casts in `worldToScreen` and the `int` screen coordinates are
  modelled as the identity on `ℚ`).
* `math.Sqrt` values are never stored: the source only ever *compares*
  distances, so every distance is carried as its exact square and every
  comparison is translated by the equivalences
  `sqrt a < sqrt b ↔ a < b` (both sides nonnegative) and
  `sqrt a < c ↔ 0 < c ∧ a < c * c` (for `a ≥ 0`).
  Concretely, the running minimum `minDist` (initially `hitThreshold = 8`) is
  carried as its square (initially `hitThreshold * hitThreshold`), and the
  test `dist < effectiveThreshold` becomes
  `0 < effectiveThreshold ∧ distSq < effectiveThreshold * effectiveThreshold`.
* `encoding/json` is modelled at the level of a JSON syntax tree `JValue`
  (field order, missing-field-means-zero-value and unknown-field-ignored
  semantics of Go's decoder are reproduced).
* Popup option closures (`Action func()`) are defunctionalised into the
  inductive `PopupAction` together with the interpreter `applyAction`, which
  mirrors the closure bodies including their index revalidation.
* The file dialogs, rendering, logging and the Ebiten input loop are external
  collaborators; `loadTracks` takes the parsed file content as an argument
  (`none` models text that is not well-formed JSON).
-/

/-- `pixelsPerMeter` from the source: 0.01 pixels per meter. -/
def pixelsPerMeter : ℚ := 1 / 100

/-- `cameraScrollSpeed` from the source. -/
def cameraScrollSpeed : ℚ := 5

/-- `popupWidth` from the source. -/
def popupWidth : Int := 100

/-- `popupOptionHeight` from the source. -/
def popupOptionHeight : Int := 20

/-- `popupPadding` from the source. -/
def popupPadding : Int := 5

/-- `popupColorSquareSize` from the source. -/
def popupColorSquareSize : Int := 16

/-- `hitThreshold` from the source: maximal click distance in pixels. -/
def hitThreshold : ℚ := 8

/-- Go `color.RGBA`: four `uint8` channels, modelled as `Fin 256`. -/
structure RGBA where
  r : Fin 256
  g : Fin 256
  b : Fin 256
  a : Fin 256
deriving DecidableEq

/-- Go struct `Track`: one rail segment, world coordinates of both endpoints,
color, thickness and the stored length in meters. -/
structure Track where
  x1 : ℚ
  y1 : ℚ
  x2 : ℚ
  y2 : ℚ
  color : RGBA
  thickness : ℚ
  lengthMeters : ℚ
deriving DecidableEq

/-- Go `image.Rectangle` as used for popup option hit boxes. -/
structure Rect where
  minX : Int
  minY : Int
  maxX : Int
  maxY : Int
deriving DecidableEq

/-- Defunctionalised popup option closures: the two closure shapes built in
`generatePopupOptions` (recolor the captured index, delete the captured
index). -/
inductive PopupAction where
  | setColor (index : Int) (c : RGBA)
  | deleteTrack (index : Int)
deriving DecidableEq

/-- Go struct `PopupOption` (the `Action func()` field is the defunctionalised
`PopupAction`). -/
structure PopupOption where
  label : String
  rect : Rect
  color : Option RGBA
  action : PopupAction
deriving DecidableEq

/-- Go struct `Game`: the application state.  Fields that only serve
rendering or raw input (`whitePixel`, `backgroundColor`, the key→color maps,
`startX/startY`) are not needed by any verified claim and are omitted. -/
structure Game where
  tracks : List Track
  drawing : Bool
  currentColor : RGBA
  thickness : ℚ
  screenWidth : Int
  screenHeight : Int
  cameraOffsetX : ℚ
  cameraOffsetY : ℚ
  popupVisible : Bool
  popupX : Int
  popupY : Int
  selectedTrackIndex : Int
  hoveredTrackIndex : Int
  popupOptions : List PopupOption
deriving DecidableEq

/-- `(g *Game) screenToWorld`: adds the camera offsets to the screen point. -/
def screenToWorld (g : Game) (screenX screenY : ℚ) : ℚ × ℚ :=
  (screenX + g.cameraOffsetX, screenY + g.cameraOffsetY)

/-- `(g *Game) worldToScreen`: subtracts the camera offsets from the world
point. -/
def worldToScreen (g : Game) (worldX worldY : ℚ) : ℚ × ℚ :=
  (worldX - g.cameraOffsetX, worldY - g.cameraOffsetY)

/-- The transform the SPEC describes (spec §4.1):
`sx = (wx - offsetX) * zoom + screenWidth/2`.  Written from the spec's words,
for comparison with the source's `worldToScreen`. -/
def worldToScreenSpec (offset zoom screenW w : ℚ) : ℚ :=
  (w - offset) * zoom + screenW / 2

/-- `calculateLengthMeters` from the source: euclidean pixel length divided by
`pixelsPerMeter`; carried as the SQUARE of the length in meters is not needed,
but the pixel length is a square root, so this returns the squared length in
meters (`(pixelLength / pixelsPerMeter)^2`), following the squared-distance
convention of this file. -/
def calculateLengthMetersSq (x1 y1 x2 y2 : ℚ) : ℚ :=
  let dx := x2 - x1
  let dy := y2 - y1
  let pixelLengthSq := dx * dx + dy * dy
  pixelLengthSq / (pixelsPerMeter * pixelsPerMeter)

/-- `pointSegmentDistance` from the source, carried as its square (the source
returns `math.Sqrt` of this value): projection parameter `t` clamped to
`[0,1]`, squared distance to the closest point; degenerate segments fall back
to the squared point distance. -/
def pointSegmentDistanceSq (px py ax ay bx by' : ℚ) : ℚ :=
  let dx := bx - ax
  let dy := by' - ay
  let lengthSq := dx * dx + dy * dy
  if lengthSq = 0 then
    (px - ax) * (px - ax) + (py - ay) * (py - ay)
  else
    let t := ((px - ax) * dx + (py - ay) * dy) / lengthSq
    let tc := max 0 (min 1 t)
    let closestX := ax + tc * dx
    let closestY := ay + tc * dy
    (px - closestX) * (px - closestX) + (py - closestY) * (py - closestY)

/-- Squared distance from a world point to a track's centerline segment. -/
def trackDistSq (wx wy : ℚ) (t : Track) : ℚ :=
  pointSegmentDistanceSq wx wy t.x1 t.y1 t.x2 t.y2

/-- `effectiveThreshold` from `findClosestTrack`:
`hitThreshold + track.Thickness/2`. -/
def effectiveThreshold (t : Track) : ℚ :=
  hitThreshold + t.thickness / 2

/-- Out-of-range index default used with `List.getD` (never read when the
index is in bounds). -/
def dummyTrack : Track :=
  { x1 := 0, y1 := 0, x2 := 0, y2 := 0, color := ⟨0, 0, 0, 0⟩,
    thickness := 0, lengthMeters := 0 }

/-- The scan loop of `findClosestTrack`: Go iterates
`for i := len(tracks)-1; i >= 0; i--`; the counter argument is the number of
indices still to process, so indices are visited from last to first.  State is
`(closestIndex, minDistSq)` with `minDistSq` the square of the source's
`minDist`.  The Go guard `dist < minDist && dist < effectiveThreshold` becomes
`distSq < minDistSq ∧ (0 < effectiveThreshold ∧ distSq < effectiveThreshold²)`
per the squared-distance convention. -/
def findClosestLoop (ts : List Track) (wx wy : ℚ) :
    Nat → Int → ℚ → Int × ℚ
  | 0, ci, md => (ci, md)
  | Nat.succ i, ci, md =>
    let t := ts.getD i dummyTrack
    let d := trackDistSq wx wy t
    if d < md ∧ 0 < effectiveThreshold t ∧
        d < effectiveThreshold t * effectiveThreshold t then
      findClosestLoop ts wx wy i (i : Int) d
    else
      findClosestLoop ts wx wy i ci md

/-- `findClosestTrack` from the source: index of the closest track within the
threshold, or `-1`. -/
def findClosestTrack (ts : List Track) (wx wy : ℚ) : Int :=
  (findClosestLoop ts wx wy ts.length (-1) (hitThreshold * hitThreshold)).1

/-- The variant of the scan that the spec describes for claim C10: identical
scan but without the per-track `effectiveThreshold` guard, so selection
depends only on the raw centerline distance.  Written for comparison with
`findClosestTrack`. -/
def findClosestLoopNoThick (ts : List Track) (wx wy : ℚ) :
    Nat → Int → ℚ → Int × ℚ
  | 0, ci, md => (ci, md)
  | Nat.succ i, ci, md =>
    let t := ts.getD i dummyTrack
    let d := trackDistSq wx wy t
    if d < md then
      findClosestLoopNoThick ts wx wy i (i : Int) d
    else
      findClosestLoopNoThick ts wx wy i ci md

/-- Thickness-blind hit test (spec's description, for claim C10). -/
def findClosestTrackNoThick (ts : List Track) (wx wy : ℚ) : Int :=
  (findClosestLoopNoThick ts wx wy ts.length (-1) (hitThreshold * hitThreshold)).1

/-- Squared distance of the track at index `i` (out-of-range reads the dummy;
only used with in-range indices). -/
def distSqAt (ts : List Track) (wx wy : ℚ) (i : Nat) : ℚ :=
  trackDistSq wx wy (ts.getD i dummyTrack)

/-- Index `i` is a hit candidate: in range, raw centerline distance below
`hitThreshold` AND below its `effectiveThreshold` (both in the squared
encoding).  This is exactly the acceptance test of the scan against the
initial running minimum. -/
def isHit (ts : List Track) (wx wy : ℚ) (i : Nat) : Prop :=
  i < ts.length ∧
  distSqAt ts wx wy i < hitThreshold * hitThreshold ∧
  0 < effectiveThreshold (ts.getD i dummyTrack) ∧
  distSqAt ts wx wy i <
    effectiveThreshold (ts.getD i dummyTrack) *
      effectiveThreshold (ts.getD i dummyTrack)

instance (ts : List Track) (wx wy : ℚ) (i : Nat) :
    Decidable (isHit ts wx wy i) := by
  unfold isHit; infer_instance

/-- Invariant of the scan state `(ci, md)` of `findClosestLoop` when `n`
indices remain: either nothing in `[n, length)` was a hit and the state is
still the initial one, or `ci` is the best hit index `b` in `[n, length)` —
smallest squared distance, larger index winning exact ties — and `md` is its
squared distance. -/
def loopInv (ts : List Track) (wx wy : ℚ) (n : Nat) (ci : Int) (md : ℚ) : Prop :=
  (ci = -1 ∧ md = hitThreshold * hitThreshold ∧
    ∀ k, n ≤ k → ¬ isHit ts wx wy k) ∨
  (∃ b : Nat, ci = (b : Int) ∧ n ≤ b ∧ isHit ts wx wy b ∧
    md = distSqAt ts wx wy b ∧
    ∀ k, n ≤ k → isHit ts wx wy k →
      distSqAt ts wx wy b ≤ distSqAt ts wx wy k ∧
      (b < k → distSqAt ts wx wy b < distSqAt ts wx wy k))

/-- Spacing between popup color squares (`squareSpacing` in
`generatePopupOptions`). -/
def squareSpacing : Int := popupColorSquareSize + 5

/-- The four palette colors, in the key order `Key1..Key4` used by
`generatePopupOptions` (`colorKeys`): red, blue, yellow, green. -/
def colorPalette : List RGBA :=
  [⟨255, 0, 0, 255⟩, ⟨0, 0, 255, 255⟩, ⟨255, 255, 0, 255⟩, ⟨0, 255, 0, 255⟩]

/-- One color-swatch option of the popup: rectangle layout and the recolor
closure (which captures the selected index) as built in
`generatePopupOptions`. -/
def colorOption (px py selIdx : Int) (i : Nat) (c : RGBA) : PopupOption :=
  { label := ""
    rect := { minX := px + popupPadding + (i : Int) * squareSpacing
              minY := py + popupPadding
              maxX := px + popupPadding + (i : Int) * squareSpacing +
                popupColorSquareSize
              maxY := py + popupPadding + popupColorSquareSize }
    color := some c
    action := PopupAction.setColor selIdx c }

/-- The delete row of the popup (`"Apagar"`), with the delete closure
capturing the selected index, as built in `generatePopupOptions`. -/
def deleteOption (px py selIdx : Int) : PopupOption :=
  { label := "Apagar"
    rect := { minX := px + popupPadding
              minY := py + popupPadding + popupColorSquareSize + popupPadding
              maxX := px + popupWidth - popupPadding
              maxY := py + popupPadding + popupColorSquareSize + popupPadding +
                popupOptionHeight }
    color := none
    action := PopupAction.deleteTrack selIdx }

/-- `generatePopupOptions` from the source: clears the options, validates the
selected index, then builds one swatch per palette color followed by the
delete row. -/
def generatePopupOptions (g : Game) : Game :=
  if 0 ≤ g.selectedTrackIndex ∧ g.selectedTrackIndex < (g.tracks.length : Int) then
    { g with popupOptions :=
        (colorPalette.enum.map fun ic =>
          colorOption g.popupX g.popupY g.selectedTrackIndex ic.1 ic.2) ++
        [deleteOption g.popupX g.popupY g.selectedTrackIndex] }
  else
    { g with popupOptions := [] }

/-- `g.tracks[i].Color = c` with the source's bounds revalidation pattern. -/
def setTrackColor (ts : List Track) (i : Nat) (c : RGBA) : List Track :=
  match ts.get? i with
  | some t => ts.set i { t with color := c }
  | none => ts

/-- Interpreter for the defunctionalised popup closures.  Mirrors the closure
bodies in `generatePopupOptions`, including the revalidation
`optIndex >= 0 && optIndex < len(g.tracks)` performed at click time; the
delete closure removes the element with
`append(tracks[:i], tracks[i+1:]...)` and resets the selection. -/
def applyAction : PopupAction → Game → Game
  | PopupAction.setColor idx c, g =>
    if 0 ≤ idx ∧ idx < (g.tracks.length : Int) then
      { g with tracks := setTrackColor g.tracks idx.toNat c }
    else g
  | PopupAction.deleteTrack idx, g =>
    if 0 ≤ idx ∧ idx < (g.tracks.length : Int) then
      { g with tracks := g.tracks.take idx.toNat ++ g.tracks.drop (idx.toNat + 1)
               selectedTrackIndex := -1 }
    else g

/-- The right-press branch of `Update` (taken when the click was not consumed
by an already-open popup): hit test at the world cursor; on a hit, select the
track, open the popup at the cursor, build its options and clear the hover;
otherwise close the popup and clear the selection. -/
def rightClickOpenPopup (g : Game) (cursorX cursorY : Int) : Game :=
  let world := screenToWorld g (cursorX : ℚ) (cursorY : ℚ)
  let clickedIndex := findClosestTrack g.tracks world.1 world.2
  if clickedIndex ≠ -1 then
    let g1 := { g with selectedTrackIndex := clickedIndex
                       popupVisible := true
                       popupX := cursorX
                       popupY := cursorY }
    let g2 := generatePopupOptions g1
    { g2 with hoveredTrackIndex := -1 }
  else
    { g with popupVisible := false, selectedTrackIndex := -1 }

/-- JSON syntax tree: the parse result of a well-formed JSON document, the
level at which `encoding/json` is modelled. -/
inductive JValue where
  | jnull : JValue
  | jbool : Bool → JValue
  | jnum : ℚ → JValue
  | jstr : String → JValue
  | jarr : List JValue → JValue
  | jobj : List (String × JValue) → JValue

/-- Keys of a JSON object (empty for non-objects). -/
def jsonKeys : JValue → List String
  | JValue.jobj fs => fs.map Prod.fst
  | _ => []

/-- Field lookup in a JSON object (none for non-objects/missing keys). -/
def jsonLookup (j : JValue) (k : String) : Option JValue :=
  match j with
  | JValue.jobj fs => fs.lookup k
  | _ => none

/-- Go decode of a JSON value into `float64`: numbers are taken as-is, `null`
is a no-op (keeps the zero value), anything else is a type error. -/
def decodeNum : JValue → Except String ℚ
  | JValue.jnum q => Except.ok q
  | JValue.jnull => Except.ok 0
  | _ => Except.error ("expected number")

/-- Go decode of an object field into `float64`: a missing field keeps the
zero value. -/
def decodeNumField (fs : List (String × JValue)) (k : String) : Except String ℚ :=
  match fs.lookup k with
  | none => Except.ok 0
  | some v => decodeNum v

/-- Go decode of a JSON value into `uint8`: must be an integral number in
`[0, 255]`; `null` keeps the zero value. -/
def decodeU8 : JValue → Except String (Fin 256)
  | JValue.jnum q =>
    if h : q.den = 1 ∧ 0 ≤ q.num ∧ q.num < 256 then
      Except.ok ⟨q.num.toNat, by omega⟩
    else Except.error ("number out of uint8 range")
  | JValue.jnull => Except.ok 0
  | _ => Except.error ("expected number")

/-- Go decode of an object field into `uint8`: missing keeps zero. -/
def decodeU8Field (fs : List (String × JValue)) (k : String) :
    Except String (Fin 256) :=
  match fs.lookup k with
  | none => Except.ok 0
  | some v => decodeU8 v

/-- Go decode of a JSON value into `color.RGBA` (exported field names
`R G B A`; unknown fields ignored, missing fields zero). -/
def decodeColor : JValue → Except String RGBA
  | JValue.jobj fs => do
    let r ← decodeU8Field fs ("R")
    let g ← decodeU8Field fs ("G")
    let b ← decodeU8Field fs ("B")
    let a ← decodeU8Field fs ("A")
    Except.ok ⟨r, g, b, a⟩
  | JValue.jnull => Except.ok ⟨0, 0, 0, 0⟩
  | _ => Except.error ("expected object")

/-- Go decode of an object field into `color.RGBA`: missing keeps zero. -/
def decodeColorField (fs : List (String × JValue)) (k : String) :
    Except String RGBA :=
  match fs.lookup k with
  | none => Except.ok ⟨0, 0, 0, 0⟩
  | some v => decodeColor v

/-- Go decode of one array element into a `Track`: reads each tagged field
(`json:"..."` tags of the struct), ignoring unknown fields and zeroing
missing ones; `null` keeps the zero `Track`. -/
def decodeTrack : JValue → Except String Track
  | JValue.jobj fs => do
    let x1 ← decodeNumField fs ("x1")
    let y1 ← decodeNumField fs ("y1")
    let x2 ← decodeNumField fs ("x2")
    let y2 ← decodeNumField fs ("y2")
    let c ← decodeColorField fs ("color")
    let th ← decodeNumField fs ("thickness")
    let lm ← decodeNumField fs ("lengthMeters")
    Except.ok ⟨x1, y1, x2, y2, c, th, lm⟩
  | JValue.jnull => Except.ok dummyTrack
  | _ => Except.error ("expected object")

/-- Sequential decode of the array elements, stopping at the first error (as
`json.Decoder.Decode` does). -/
def decodeTracks : List JValue → Except String (List Track)
  | [] => Except.ok []
  | j :: js => do
    let t ← decodeTrack j
    let ts ← decodeTracks js
    Except.ok (t :: ts)

/-- `decoder.Decode(&loadedTracks)` of `loadTracks`: the document must be an
array (or `null`, which decodes to the nil slice). -/
def deserialize : JValue → Except String (List Track)
  | JValue.jnull => Except.ok []
  | JValue.jarr js => decodeTracks js
  | _ => Except.error ("expected array")

/-- `encoding/json` encoding of a `color.RGBA` (exported field names). -/
def rgbaToJson (c : RGBA) : JValue :=
  JValue.jobj
    [(("R"), JValue.jnum ((c.r : ℕ) : ℚ)),
     (("G"), JValue.jnum ((c.g : ℕ) : ℚ)),
     (("B"), JValue.jnum ((c.b : ℕ) : ℚ)),
     (("A"), JValue.jnum ((c.a : ℕ) : ℚ))]

/-- `encoding/json` encoding of a `Track` (tag names, declaration order). -/
def trackToJson (t : Track) : JValue :=
  JValue.jobj
    [(("x1"), JValue.jnum t.x1),
     (("y1"), JValue.jnum t.y1),
     (("x2"), JValue.jnum t.x2),
     (("y2"), JValue.jnum t.y2),
     (("color"), rgbaToJson t.color),
     (("thickness"), JValue.jnum t.thickness),
     (("lengthMeters"), JValue.jnum t.lengthMeters)]

/-- `encoder.Encode(g.tracks)` of `saveTracks`: the tracks as a JSON array. -/
def serialize (ts : List Track) : JValue :=
  JValue.jarr (ts.map trackToJson)

/-- `loadTracks` from the source, with the chosen file's content as an
argument: `none` models text that is not well-formed JSON (the decoder
errors before producing a parse tree).  On any decode failure the error is
returned and the state is untouched; on success the track list is replaced
wholesale and both camera offsets are reset — and nothing else changes. -/
def decodeFile : Option JValue → Except String (List Track)
  | none => Except.error ("malformed JSON")
  | some j => deserialize j

/-- The state transition of `loadTracks` around the decode above. -/
def loadTracks (g : Game) (file : Option JValue) : Game × Option String :=
  match decodeFile file with
  | Except.error e => (g, some e)
  | Except.ok loadedTracks =>
    ({ g with tracks := loadedTracks, cameraOffsetX := 0, cameraOffsetY := 0 },
     none)

/-- The initial state built by `NewGame` (with the fallback window size, and
only the fields this file models). -/
def baseGame : Game :=
  { tracks := []
    drawing := false
    currentColor := ⟨255, 0, 0, 255⟩
    thickness := 5
    screenWidth := 1024
    screenHeight := 768
    cameraOffsetX := 0
    cameraOffsetY := 0
    popupVisible := false
    popupX := 0
    popupY := 0
    selectedTrackIndex := -1
    hoveredTrackIndex := -1
    popupOptions := [] }

/-- A representative saved track: `(0,0) → (10,0)`, red, thickness 5. -/
def sampleTrack : Track :=
  { x1 := 0, y1 := 0, x2 := 10, y2 := 0, color := ⟨255, 0, 0, 255⟩,
    thickness := 5, lengthMeters := 1000 }

/-- A state mid-interaction: one track, popup open on it, hover and drawing
flags set, camera panned.  Used to observe what a successful load does and
does not reset. -/
def popupGame : Game :=
  { baseGame with
    tracks := [sampleTrack]
    popupVisible := true
    selectedTrackIndex := 0
    hoveredTrackIndex := 0
    drawing := true
    cameraOffsetX := 3
    cameraOffsetY := 4 }

/-- A parsed file whose three objects carry `id` fields `{3, 7, 2}` (fields
the Go decoder silently ignores, `Track` having no such field). -/
def idFile : JValue :=
  JValue.jarr
    [JValue.jobj [(("id"), JValue.jnum 3), (("x1"), JValue.jnum 1)],
     JValue.jobj [(("id"), JValue.jnum 7)],
     JValue.jobj [(("id"), JValue.jnum 2)]]

/-! ## Codec round-trip lemmas (shared helpers) -/

/-- Decoding the encoding of a `uint8` channel recovers it. -/
theorem decodeU8_roundtrip (x : Fin 256) :
    decodeU8 (JValue.jnum ((x : ℕ) : ℚ)) = Except.ok x := by
  have hnum : (((x : ℕ) : ℚ)).num = ((x : ℕ) : ℤ) := Rat.num_natCast _
  have hcond : (((x : ℕ) : ℚ)).den = 1 ∧ 0 ≤ (((x : ℕ) : ℚ)).num ∧
      (((x : ℕ) : ℚ)).num < 256 := by
    refine ⟨Rat.den_natCast _, ?_, ?_⟩ <;> rw [hnum]
    · exact Int.natCast_nonneg _
    · exact_mod_cast x.isLt
  simp only [decodeU8]
  rw [dif_pos hcond]
  rfl

/-- Decoding the encoding of a color recovers it. -/
theorem decodeColor_roundtrip (c : RGBA) :
    decodeColor (rgbaToJson c) = Except.ok c := by
  simp [decodeColor, rgbaToJson, decodeU8Field, List.lookup,
    decodeU8_roundtrip, Bind.bind, Except.bind]

/-- Decoding the encoding of a track recovers every field. -/
theorem decodeTrack_roundtrip (t : Track) :
    decodeTrack (trackToJson t) = Except.ok t := by
  simp [decodeTrack, trackToJson, decodeNumField, decodeColorField,
    List.lookup, decodeNum, decodeColor_roundtrip, Bind.bind, Except.bind]

/-- Decoding the encodings of a track list recovers the list. -/
theorem decodeTracks_roundtrip (ts : List Track) :
    decodeTracks (ts.map trackToJson) = Except.ok ts := by
  induction ts with
  | nil => rfl
  | cons t ts ih =>
    simp [decodeTracks, decodeTrack_roundtrip, ih, Bind.bind, Except.bind]

/-! ## Hit-test characterisation (shared helpers) -/

/-- Running the scan from any state satisfying the invariant ends in a state
satisfying the invariant with no indices left. -/
theorem findClosestLoop_inv (ts : List Track) (wx wy : ℚ) :
    ∀ (n : Nat) (ci : Int) (md : ℚ), n ≤ ts.length →
      loopInv ts wx wy n ci md →
      loopInv ts wx wy 0 (findClosestLoop ts wx wy n ci md).1
        (findClosestLoop ts wx wy n ci md).2 := by
  intro n
  induction n with
  | zero =>
    intro ci md _ h
    simpa [findClosestLoop] using h
  | succ n ih =>
    intro ci md hn hinv
    have hnlen : n < ts.length := hn
    simp only [findClosestLoop]
    split
    next hc =>
      refine ih _ _ (Nat.le_of_succ_le hn) ?_
      rcases hinv with ⟨hci, hmd, hno⟩ | ⟨b, hci, hnb, hhitb, hmd, hmin⟩
      · right
        refine ⟨n, rfl, le_refl n, ⟨hnlen, ?_, hc.2.1, hc.2.2⟩, rfl, ?_⟩
        · rw [hmd] at hc
          exact hc.1
        · intro k hk hhit
          rcases Nat.eq_or_lt_of_le hk with hkn | hkn
          · exact hkn ▸ ⟨le_refl _, fun h => absurd h (lt_irrefl n)⟩
          · exact absurd hhit (hno k hkn)
      · have hdb : distSqAt ts wx wy n < distSqAt ts wx wy b := hmd ▸ hc.1
        right
        refine ⟨n, rfl, le_refl n,
          ⟨hnlen, lt_trans hdb hhitb.2.1, hc.2.1, hc.2.2⟩, rfl, ?_⟩
        intro k hk hhit
        rcases Nat.eq_or_lt_of_le hk with hkn | hkn
        · exact hkn ▸ ⟨le_refl _, fun h => absurd h (lt_irrefl n)⟩
        · have := (hmin k hkn hhit).1
          exact ⟨le_of_lt (lt_of_lt_of_le hdb this),
            fun _ => lt_of_lt_of_le hdb this⟩
    next hc =>
      refine ih _ _ (Nat.le_of_succ_le hn) ?_
      rcases hinv with ⟨hci, hmd, hno⟩ | ⟨b, hci, hnb, hhitb, hmd, hmin⟩
      · left
        refine ⟨hci, hmd, ?_⟩
        intro k hk hhit
        rcases Nat.eq_or_lt_of_le hk with hkn | hkn
        · subst hkn
          exact hc ⟨hmd ▸ hhit.2.1, hhit.2.2.1, hhit.2.2.2⟩
        · exact hno k hkn hhit
      · right
        refine ⟨b, hci, Nat.le_of_succ_le hnb, hhitb, hmd, ?_⟩
        intro k hk hhit
        rcases Nat.eq_or_lt_of_le hk with hkn | hkn
        · subst hkn
          have hnd : ¬ (distSqAt ts wx wy n < md) :=
            fun hdm => hc ⟨hdm, hhit.2.2.1, hhit.2.2.2⟩
          refine ⟨hmd ▸ le_of_not_lt hnd, ?_⟩
          intro hbk
          exact absurd hbk (by omega)
        · exact hmin k hkn hhit

/-- The final scan state characterises `findClosestTrack`. -/
theorem findClosestTrack_cases (ts : List Track) (wx wy : ℚ) :
    (findClosestTrack ts wx wy = -1 ∧ ∀ k, ¬ isHit ts wx wy k) ∨
    (∃ b : Nat, findClosestTrack ts wx wy = (b : Int) ∧ isHit ts wx wy b ∧
      ∀ k, isHit ts wx wy k →
        distSqAt ts wx wy b ≤ distSqAt ts wx wy k ∧
        (b < k → distSqAt ts wx wy b < distSqAt ts wx wy k)) := by
  have hstart : loopInv ts wx wy ts.length (-1)
      (hitThreshold * hitThreshold) := by
    left
    exact ⟨rfl, rfl, fun k hk hhit => absurd hhit.1 (by omega)⟩
  rcases findClosestLoop_inv ts wx wy ts.length (-1)
      (hitThreshold * hitThreshold) le_rfl hstart with
    ⟨h1, _, h3⟩ | ⟨b, h1, _, h3, _, h5⟩
  · left
    exact ⟨h1, fun k => h3 k (Nat.zero_le k)⟩
  · right
    exact ⟨b, h1, h3, fun k hk => h5 k (Nat.zero_le k) hk⟩

/-- When `findClosestTrack` returns a nonnegative index, that index is a hit
candidate minimising the squared distance, later indices beating earlier ones
on ties. -/
theorem findClosestTrack_best (ts : List Track) (wx wy : ℚ) (i : Nat)
    (h : findClosestTrack ts wx wy = (i : Int)) :
    isHit ts wx wy i ∧
    ∀ k, isHit ts wx wy k →
      distSqAt ts wx wy i ≤ distSqAt ts wx wy k ∧
      (i < k → distSqAt ts wx wy i < distSqAt ts wx wy k) := by
  rcases findClosestTrack_cases ts wx wy with ⟨h1, _⟩ | ⟨b, h1, h2, h3⟩
  · rw [h] at h1
    exact absurd h1 (by omega)
  · rw [h] at h1
    have hbi : b = i := by exact_mod_cast h1.symm
    subst hbi
    exact ⟨h2, h3⟩

/-- An in-range `getD` read is a member of the list. -/
theorem getD_mem : ∀ (ts : List Track) (n : Nat), n < ts.length →
    ts.getD n dummyTrack ∈ ts
  | t :: ts, 0, _ => List.mem_cons_self t ts
  | t :: ts, n + 1, h =>
    List.mem_cons_of_mem t (getD_mem ts n (by simpa using h))

/-- With nonnegative thicknesses and a running minimum not above the initial
threshold, the per-track `effectiveThreshold` guard never rejects anything
the distance guard accepts, so the two scans coincide step by step. -/
theorem loops_agree (ts : List Track) (wx wy : ℚ)
    (hth : ∀ t ∈ ts, 0 ≤ t.thickness) :
    ∀ (n : Nat) (ci : Int) (md : ℚ), n ≤ ts.length →
      md ≤ hitThreshold * hitThreshold →
      findClosestLoop ts wx wy n ci md =
        findClosestLoopNoThick ts wx wy n ci md := by
  intro n
  induction n with
  | zero => intro ci md _ _; rfl
  | succ n ih =>
    intro ci md hn hmd
    have hnlen : n < ts.length := hn
    have htn : 0 ≤ (ts.getD n dummyTrack).thickness :=
      hth _ (getD_mem ts n hnlen)
    have he : (8 : ℚ) ≤ effectiveThreshold (ts.getD n dummyTrack) := by
      unfold effectiveThreshold hitThreshold
      linarith
    have he2 : hitThreshold * hitThreshold ≤
        effectiveThreshold (ts.getD n dummyTrack) *
          effectiveThreshold (ts.getD n dummyTrack) := by
      unfold hitThreshold
      nlinarith
    simp only [findClosestLoop, findClosestLoopNoThick]
    by_cases hd : trackDistSq wx wy (ts.getD n dummyTrack) < md
    · rw [if_pos ⟨hd, by linarith,
        lt_of_lt_of_le (lt_of_lt_of_le hd hmd) he2⟩, if_pos hd]
      exact ih _ _ (Nat.le_of_succ_le hn) (le_of_lt (lt_of_lt_of_le hd hmd))
    · rw [if_neg (fun h => hd h.1), if_neg hd]
      exact ih _ _ (Nat.le_of_succ_le hn) hmd

/-- On a valid selected index, `generatePopupOptions` installs one swatch per
palette color followed by the delete row, and changes nothing else. -/
theorem generatePopupOptions_valid (g : Game)
    (h : 0 ≤ g.selectedTrackIndex ∧
      g.selectedTrackIndex < (g.tracks.length : Int)) :
    generatePopupOptions g =
      { g with popupOptions :=
          (colorPalette.enum.map fun ic =>
            colorOption g.popupX g.popupY g.selectedTrackIndex ic.1 ic.2) ++
          [deleteOption g.popupX g.popupY g.selectedTrackIndex] } := by
  unfold generatePopupOptions
  rw [if_pos h]

/-- On a hit, the right-press branch selects the hit index, opens the popup at
the cursor, builds the options and clears the hover. -/
theorem rightClickOpenPopup_hit (g : Game) (cursorX cursorY : Int) (idx : Int)
    (hi : findClosestTrack g.tracks
        (screenToWorld g (cursorX : ℚ) (cursorY : ℚ)).1
        (screenToWorld g (cursorX : ℚ) (cursorY : ℚ)).2 = idx)
    (hne : idx ≠ -1) :
    rightClickOpenPopup g cursorX cursorY =
      { generatePopupOptions
          { g with
            selectedTrackIndex := idx
            popupVisible := true
            popupX := cursorX
            popupY := cursorY } with
        hoveredTrackIndex := -1 } := by
  simp only [rightClickOpenPopup]
  rw [hi, if_pos hne]

/-! ## Claim theorems -/

/-- C1 (counterexample): the spec formula
`sx = (wx - offsetX) * zoom + screenWidth/2` is false of the code's
`worldToScreen`.  At world point `(0, 0)` with zero offsets the formula
predicts `screenWidth/2 = 512` for every zoom (the pan-adjusted coordinate is
`0`, so the zoom factor is irrelevant at this input), but the code returns
`0`. -/
theorem worldToScreen_spec_formula_counterexample :
    (worldToScreen baseGame 0 0).1 = 0 ∧
    worldToScreenSpec baseGame.cameraOffsetX 1 (baseGame.screenWidth : ℚ) 0 =
      512 ∧
    (0 : ℚ) ≠ 512 := by
  refine ⟨by with_unfolding_all decide, ?_, by norm_num⟩
  show ((0 : ℚ) - 0) * 1 + (1024 : ℚ) / 2 = 512
  norm_num

/-- C1 (amended): `worldToScreen` only pan-adjusts: it returns
`sx = wx - offsetX` and `sy = wy - offsetY`, which is the spec's formula with
the zoom factor fixed at `1` and without the `screenWidth/2` recentering term
(the code has no zoom and no viewport recentering). -/
theorem worldToScreen_pan_only (g : Game) (wx wy : ℚ) :
    (worldToScreen g wx wy).1 = worldToScreenSpec g.cameraOffsetX 1 0 wx ∧
    (worldToScreen g wx wy).2 = worldToScreenSpec g.cameraOffsetY 1 0 wy := by
  unfold worldToScreen worldToScreenSpec
  constructor <;> ring

/-- C2: for every world point and camera state, `screenToWorld` composed with
`worldToScreen` returns the original point (exactly, in the exact-rational
model of the floating-point arithmetic). -/
theorem screenToWorld_worldToScreen_roundtrip (g : Game) (wx wy : ℚ) :
    screenToWorld g (worldToScreen g wx wy).1 (worldToScreen g wx wy).2 =
      (wx, wy) := by
  unfold screenToWorld worldToScreen
  simp

/-- C3 (counterexample): the claim says a point whose distance-to-edge
(perpendicular distance minus half the gauge) is below the threshold IS
selected.  For the track `(0,0)–(10,0)` of thickness `5`, the point `(5, 9)`
has centerline distance `9`, hence edge distance `9 - 5/2 = 6.5 < 8`, yet
`findClosestTrack` does not select it (the code compares the raw centerline
distance, and `9 ≥ 8`). -/
theorem hit_test_edge_distance_counterexample :
    trackDistSq 5 9 sampleTrack = 9 * 9 ∧
    (9 : ℚ) - sampleTrack.thickness / 2 < hitThreshold ∧
    findClosestTrack [sampleTrack] 5 9 = -1 := by
  refine ⟨?_, ?_, ?_⟩ <;> with_unfolding_all decide

/-- C3 (amended): for a single candidate track with nonnegative thickness,
the hit test selects it iff the RAW centerline distance is strictly below
`hitThreshold = 8` (no reduction by half the gauge, and no zoom adjustment —
the code has no zoom): distance exactly `8` is not selected, any distance
below `8` is selected.  Stated with squared distances per this file's
convention. -/
theorem findClosestTrack_raw_threshold (t : Track) (wx wy : ℚ)
    (hth : 0 ≤ t.thickness) :
    (trackDistSq wx wy t < hitThreshold * hitThreshold →
      findClosestTrack [t] wx wy = 0) ∧
    (hitThreshold * hitThreshold ≤ trackDistSq wx wy t →
      findClosestTrack [t] wx wy = -1) := by
  have he : (8 : ℚ) ≤ effectiveThreshold t := by
    unfold effectiveThreshold hitThreshold
    linarith
  have he2 : hitThreshold * hitThreshold ≤
      effectiveThreshold t * effectiveThreshold t := by
    unfold hitThreshold
    nlinarith
  have hd0 : distSqAt [t] wx wy 0 = trackDistSq wx wy t := rfl
  have hlen : (0 : Nat) < [t].length := by simp
  constructor
  · intro hlt
    have hhit0 : isHit [t] wx wy 0 := by
      refine ⟨hlen, hd0 ▸ hlt, ?_, ?_⟩
      · rw [show ([t].getD 0 dummyTrack) = t from rfl]
        linarith
      · rw [show ([t].getD 0 dummyTrack) = t from rfl, hd0]
        exact lt_of_lt_of_le hlt he2
    rcases findClosestTrack_cases [t] wx wy with ⟨_, hno⟩ | ⟨b, hb, hhitb, _⟩
    · exact absurd hhit0 (hno 0)
    · have hb0 : b = 0 := by
        have := hhitb.1
        simp at this
        exact this
      rw [hb, hb0]
      rfl
  · intro hge
    rcases findClosestTrack_cases [t] wx wy with ⟨hneg, _⟩ | ⟨b, hb, hhitb, _⟩
    · exact hneg
    · have hb0 : b = 0 := by
        have := hhitb.1
        simp at this
        exact this
      subst hb0
      have := hhitb.2.1
      rw [hd0] at this
      exact absurd this (not_lt.mpr hge)

/-- C3 (witness): the amended theorem applied to the sample track and the
point `(5, 3)` (raw distance `3 < 8`), which is selected. -/
theorem findClosestTrack_raw_threshold_witness :
    (0 : ℚ) ≤ sampleTrack.thickness ∧
    trackDistSq 5 3 sampleTrack < hitThreshold * hitThreshold ∧
    findClosestTrack [sampleTrack] 5 3 = 0 := by
  have h1 : (0 : ℚ) ≤ sampleTrack.thickness := by with_unfolding_all decide
  have h2 : trackDistSq 5 3 sampleTrack < hitThreshold * hitThreshold := by
    with_unfolding_all decide
  exact ⟨h1, h2, (findClosestTrack_raw_threshold sampleTrack 5 3 h1).1 h2⟩

/-- C4: when two candidates at indices `i < j` are both within the hit
threshold at exactly equal distance and `j` is the topmost of the
minimum-distance candidates, `findClosestTrack` returns `j`, the
later-inserted (topmost in z-order) one: the scan runs from last to first and
replaces the running best only on strictly smaller distance, so ties keep the
higher index. -/
theorem findClosestTrack_zorder_tiebreak (ts : List Track) (wx wy : ℚ)
    (i j : Nat) (hij : i < j) (hi : isHit ts wx wy i) (hj : isHit ts wx wy j)
    (htie : distSqAt ts wx wy i = distSqAt ts wx wy j)
    (hmin : ∀ k, isHit ts wx wy k →
      distSqAt ts wx wy j ≤ distSqAt ts wx wy k ∧
      (distSqAt ts wx wy k = distSqAt ts wx wy j → k ≤ j)) :
    findClosestTrack ts wx wy = (j : Int) := by
  rcases findClosestTrack_cases ts wx wy with ⟨_, hno⟩ | ⟨b, hb, hhitb, hbest⟩
  · exact absurd hj (hno j)
  · have h1 : distSqAt ts wx wy b ≤ distSqAt ts wx wy j := (hbest j hj).1
    have h2 : distSqAt ts wx wy j ≤ distSqAt ts wx wy b := (hmin b hhitb).1
    have hEq : distSqAt ts wx wy b = distSqAt ts wx wy j := le_antisymm h1 h2
    have hble : b ≤ j := (hmin b hhitb).2 hEq
    have hjle : j ≤ b := by
      by_contra hlt
      push_neg at hlt
      exact absurd hEq (ne_of_lt ((hbest j hj).2 hlt))
    have hbj : b = j := le_antisymm hble hjle
    rw [hb, hbj]

/-- C4 (witness): two identical overlapping tracks; the query point is at
distance `3` from both; the scan returns index `1`, the later-inserted one. -/
theorem findClosestTrack_zorder_tiebreak_witness :
    isHit [sampleTrack, sampleTrack] 5 3 0 ∧
    isHit [sampleTrack, sampleTrack] 5 3 1 ∧
    distSqAt [sampleTrack, sampleTrack] 5 3 0 =
      distSqAt [sampleTrack, sampleTrack] 5 3 1 ∧
    findClosestTrack [sampleTrack, sampleTrack] 5 3 = (1 : Int) := by
  have h0 : isHit [sampleTrack, sampleTrack] 5 3 0 := by
    with_unfolding_all decide
  have h1 : isHit [sampleTrack, sampleTrack] 5 3 1 := by
    with_unfolding_all decide
  have htie : distSqAt [sampleTrack, sampleTrack] 5 3 0 =
      distSqAt [sampleTrack, sampleTrack] 5 3 1 := by
    with_unfolding_all decide
  have hmin : ∀ k, isHit [sampleTrack, sampleTrack] 5 3 k →
      distSqAt [sampleTrack, sampleTrack] 5 3 1 ≤
        distSqAt [sampleTrack, sampleTrack] 5 3 k ∧
      (distSqAt [sampleTrack, sampleTrack] 5 3 k =
        distSqAt [sampleTrack, sampleTrack] 5 3 1 → k ≤ 1) := by
    intro k hk
    have hk2 : k < 2 := hk.1
    interval_cases k
    · exact ⟨le_of_eq (by with_unfolding_all decide), fun _ => by omega⟩
    · exact ⟨le_refl _, fun _ => le_refl 1⟩
  exact ⟨h0, h1, htie,
    findClosestTrack_zorder_tiebreak [sampleTrack, sampleTrack] 5 3 0 1
      (by omega) h0 h1 htie hmin⟩

/-- C5: deserialising the serialisation of any (in particular any non-empty)
track list returns the same list: same length, same order, every field
(endpoints, color, thickness, length) preserved. -/
theorem deserialize_serialize_roundtrip (ts : List Track) (hne : ts ≠ []) :
    deserialize (serialize ts) = Except.ok ts :=
  decodeTracks_roundtrip ts

/-- C5 (witness): the round trip on a one-element list. -/
theorem deserialize_serialize_roundtrip_witness :
    ([sampleTrack] ≠ ([] : List Track)) ∧
    deserialize (serialize [sampleTrack]) = Except.ok [sampleTrack] :=
  ⟨List.cons_ne_nil _ _,
    deserialize_serialize_roundtrip [sampleTrack] (List.cons_ne_nil _ _)⟩

/-- C6: when the file content does not decode, `loadTracks` returns the error
and the whole state — in particular the track collection, its contents and
its length — is unchanged. -/
theorem loadTracks_decode_failure_preserves (g : Game) (j : JValue)
    (e : String) (hne : g.tracks ≠ [])
    (hj : deserialize j = Except.error e) :
    loadTracks g (some j) = (g, some e) ∧
    (loadTracks g (some j)).1.tracks = g.tracks ∧
    (loadTracks g (some j)).1.tracks.length = g.tracks.length := by
  simp only [loadTracks, decodeFile]
  rw [hj]
  exact ⟨rfl, rfl, rfl⟩

/-- C6 (witness): loading a file whose document is the number `5` (not an
array) into a state with one track returns the decode error and keeps the
track. -/
theorem loadTracks_decode_failure_preserves_witness :
    (popupGame.tracks ≠ []) ∧
    deserialize (JValue.jnum 5) = Except.error ("expected array") ∧
    loadTracks popupGame (some (JValue.jnum 5)) =
      (popupGame, some ("expected array")) :=
  ⟨List.cons_ne_nil _ _, rfl,
    (loadTracks_decode_failure_preserves popupGame (JValue.jnum 5)
      ("expected array") (List.cons_ne_nil _ _) rfl).1⟩

/-- C7 (counterexample): after a SUCCESSFUL load (error component `none`),
the popup, selection, hover and drawing state are NOT reset to their neutral
values (`false`, `-1`, `-1`, `false`): `loadTracks` only replaces the tracks
and resets the camera.  The claim's reset of
popupVisible/selectedTrackIndex/hoveredTrackIndex/drawing is refuted at this
input. -/
theorem loadTracks_keeps_interaction_state_counterexample :
    (loadTracks popupGame (some JValue.jnull)).2 = none ∧
    (loadTracks popupGame (some JValue.jnull)).1.popupVisible = true ∧
    (loadTracks popupGame (some JValue.jnull)).1.selectedTrackIndex = 0 ∧
    (loadTracks popupGame (some JValue.jnull)).1.hoveredTrackIndex = 0 ∧
    (loadTracks popupGame (some JValue.jnull)).1.drawing = true :=
  ⟨rfl, rfl, rfl, rfl, rfl⟩

/-- C7 (amended): after every successful load the track collection is
replaced wholesale by the loaded list and the camera pan is reset to identity
(`offsetX = offsetY = 0`); every other field — including popupVisible,
selectedTrackIndex, hoveredTrackIndex and drawing — is left exactly as it
was. -/
theorem loadTracks_success_state (g : Game) (j : JValue) (ts : List Track)
    (hj : deserialize j = Except.ok ts) :
    loadTracks g (some j) =
      ({ g with tracks := ts, cameraOffsetX := 0, cameraOffsetY := 0 },
        none) := by
  simp only [loadTracks, decodeFile]
  rw [hj]

/-- C7 (witness): a successful load of the empty document `null` into the
mid-interaction state. -/
theorem loadTracks_success_state_witness :
    deserialize JValue.jnull = Except.ok [] ∧
    loadTracks popupGame (some JValue.jnull) =
      ({ popupGame with tracks := [], cameraOffsetX := 0, cameraOffsetY := 0 },
        none) :=
  ⟨rfl, loadTracks_success_state popupGame JValue.jnull [] rfl⟩

/-- C8 (counterexample): elements carry no integer id at all.  Loading a file
whose three objects carry `id` fields `{3, 7, 2}` succeeds with the ids
silently dropped — the elements decoded from the objects with ids `7` and `2`
are EQUAL (both the zero track), so no id distinguishes them — and a
serialised element has no `id` field to allocate from, so no subsequent add
can assign id `8`. -/
theorem track_id_counterexample :
    deserialize idFile =
      Except.ok [{ dummyTrack with x1 := 1 }, dummyTrack, dummyTrack] ∧
    jsonLookup (trackToJson dummyTrack) ("id") = none := by
  exact ⟨by with_unfolding_all rfl, rfl⟩

/-- C8 (amended): elements carry no id and there is no ID allocator: a
serialised element has exactly the seven fields
`x1, y1, x2, y2, color, thickness, lengthMeters` and in particular no `id`
field; elements are identified only by their list position. -/
theorem track_serialization_has_no_id (t : Track) :
    jsonKeys (trackToJson t) =
      [("x1"), ("y1"), ("x2"), ("y2"), ("color"), ("thickness"),
        ("lengthMeters")] ∧
    jsonLookup (trackToJson t) ("id") = none :=
  ⟨rfl, rfl⟩

/-- C9: a right click that hits a track opens a popup with exactly
`paletteSize + 1` options (one swatch per palette color plus the delete row —
there is no orientation toggle), and applying the delete option's action
removes exactly the selected element and no other, decrementing the length by
one. -/
theorem rightClick_popup_size_and_delete (g : Game) (cursorX cursorY : Int)
    (i : Nat)
    (hi : findClosestTrack g.tracks
        (screenToWorld g (cursorX : ℚ) (cursorY : ℚ)).1
        (screenToWorld g (cursorX : ℚ) (cursorY : ℚ)).2 = (i : Int)) :
    (rightClickOpenPopup g cursorX cursorY).popupOptions.length =
      colorPalette.length + 1 ∧
    (rightClickOpenPopup g cursorX cursorY).popupOptions.getLast? =
      some (deleteOption cursorX cursorY (i : Int)) ∧
    (deleteOption cursorX cursorY (i : Int)).action =
      PopupAction.deleteTrack (i : Int) ∧
    (applyAction (PopupAction.deleteTrack (i : Int))
        (rightClickOpenPopup g cursorX cursorY)).tracks =
      g.tracks.eraseIdx i ∧
    (applyAction (PopupAction.deleteTrack (i : Int))
        (rightClickOpenPopup g cursorX cursorY)).tracks.length + 1 =
      g.tracks.length := by
  have hlen : i < g.tracks.length := ((findClosestTrack_best _ _ _ _ hi).1).1
  have hne : ((i : Int)) ≠ -1 := by omega
  have hguard : 0 ≤ ((i : Int)) ∧ ((i : Int)) < (g.tracks.length : Int) := by
    constructor
    · omega
    · exact_mod_cast hlen
  have hg := rightClickOpenPopup_hit g cursorX cursorY ((i : Int)) hi hne
  have hgen := generatePopupOptions_valid
    { g with
      selectedTrackIndex := ((i : Int))
      popupVisible := true
      popupX := cursorX
      popupY := cursorY } hguard
  rw [hgen] at hg
  refine ⟨?_, ?_, rfl, ?_, ?_⟩
  · rw [hg]
    simp
  · rw [hg]
    simp [List.getLast?_concat]
  · rw [hg]
    show (if 0 ≤ ((i : Int)) ∧ ((i : Int)) < (g.tracks.length : Int) then _
      else _ : Game).tracks = _
    rw [if_pos hguard]
    simp [Int.toNat_natCast, List.eraseIdx_eq_take_drop_succ]
  · rw [hg]
    show (if 0 ≤ ((i : Int)) ∧ ((i : Int)) < (g.tracks.length : Int) then _
      else _ : Game).tracks.length + 1 = _
    rw [if_pos hguard]
    simp [Int.toNat_natCast, List.length_take, List.length_drop]
    omega

/-- C9 (witness): right click at the screen point `(5, 0)` over the sample
track from the base state. -/
theorem rightClick_popup_size_and_delete_witness :
    findClosestTrack [sampleTrack]
      (screenToWorld { baseGame with tracks := [sampleTrack] } 5 0).1
      (screenToWorld { baseGame with tracks := [sampleTrack] } 5 0).2 =
      ((0 : Nat) : Int) ∧
    (rightClickOpenPopup { baseGame with tracks := [sampleTrack] } 5 0
      ).popupOptions.length = colorPalette.length + 1 ∧
    (applyAction (PopupAction.deleteTrack ((0 : Nat) : Int))
        (rightClickOpenPopup { baseGame with tracks := [sampleTrack] } 5 0)
      ).tracks = [] := by
  have hi : findClosestTrack [sampleTrack]
      (screenToWorld { baseGame with tracks := [sampleTrack] } 5 0).1
      (screenToWorld { baseGame with tracks := [sampleTrack] } 5 0).2 =
      ((0 : Nat) : Int) := by
    with_unfolding_all decide
  have h := rightClick_popup_size_and_delete
    { baseGame with tracks := [sampleTrack] } 5 0 0 hi
  refine ⟨hi, h.1, ?_⟩
  have := h.2.2.2.1
  simpa using this

/-- C10 (counterexample): the per-track thickness-widened threshold CAN
matter, because a negative `Thickness` (representable in a saved file, which
is loaded without validation) makes `effectiveThreshold < hitThreshold`: at
distance `0` the track of thickness `-20` is not selected while the identical
track of thickness `0` is — selection is not independent of `Thickness`. -/
theorem thickness_dependence_counterexample :
    findClosestTrack [{ sampleTrack with thickness := -20 }] 5 0 = -1 ∧
    findClosestTrack [{ sampleTrack with thickness := 0 }] 5 0 = 0 ∧
    trackDistSq 5 0 { sampleTrack with thickness := -20 } = 0 := by
  refine ⟨?_, ?_, ?_⟩ <;> with_unfolding_all decide

/-- C10 (amended): provided every track's `Thickness` is nonnegative (as for
every track the editor itself creates), the thickness-widened threshold never
matters: `findClosestTrack` coincides with the thickness-blind scan, whose
acceptance is exactly `raw centerline distance < hitThreshold` with the
strictly-smaller running minimum — so selection is independent of the
`Thickness` values. -/
theorem findClosestTrack_thickness_blind (ts : List Track) (wx wy : ℚ)
    (hth : ∀ t ∈ ts, 0 ≤ t.thickness) :
    findClosestTrack ts wx wy = findClosestTrackNoThick ts wx wy := by
  unfold findClosestTrack findClosestTrackNoThick
  rw [loops_agree ts wx wy hth ts.length (-1) (hitThreshold * hitThreshold)
    le_rfl le_rfl]

/-- C10 (witness): the two scans agree on a concrete list with positive
thickness, both selecting index `0`. -/
theorem findClosestTrack_thickness_blind_witness :
    (∀ t ∈ [sampleTrack], (0 : ℚ) ≤ t.thickness) ∧
    findClosestTrack [sampleTrack] 5 3 =
      findClosestTrackNoThick [sampleTrack] 5 3 ∧
    findClosestTrack [sampleTrack] 5 3 = 0 := by
  have hth : ∀ t ∈ [sampleTrack], (0 : ℚ) ≤ t.thickness := by
    with_unfolding_all decide
  exact ⟨hth, findClosestTrack_thickness_blind [sampleTrack] 5 3 hth,
    by with_unfolding_all decide⟩
